import Mathlib

/-!
Verification of the watcher/provisioning core of `git-worktree-agent`.

The Rust sources are shallowly embedded: external processes (git fetch,
`git worktree add`, setup hooks) are oracles whose observed results are
explicit parameters, stateful methods become pure functions from a
`Watcher` state to a new state plus the list of `WatcherEvent`s sent on
the event channel, and the background fetch/hook threads are modelled by
the exact messages they put on their mpsc channels.
-/

set_option maxRecDepth 10000

/-- Output from a running command (`executor.rs`, `enum CommandOutput`). -/
inductive CommandOutput where
  | Stdout (line : String)
  | Stderr (line : String)
  | Exit (code : Int)
  | Error (msg : String)
deriving Repr, DecidableEq

/-- Log entry for command execution (`executor.rs`, `struct CommandLog`). -/
structure CommandLog where
  branch : String
  command : String
  output : List CommandOutput
  is_running : Bool
  exit_code : Option Int
  is_system_log : Bool
deriving Repr, DecidableEq

/-- `CommandLog::new` (executor.rs). -/
def CommandLog.new (branch command : String) : CommandLog :=
  { branch := branch, command := command, output := [], is_running := true,
    exit_code := none, is_system_log := false }

/-- `CommandLog::new_system` (executor.rs). -/
def CommandLog.new_system (name command : String) : CommandLog :=
  { branch := name, command := command, output := [], is_running := true,
    exit_code := none, is_system_log := true }

/-- `CommandLog::add_output` (executor.rs). -/
def CommandLog.add_output (log : CommandLog) (o : CommandOutput) : CommandLog :=
  let log :=
    match o with
    | CommandOutput.Exit code => { log with is_running := false, exit_code := some code }
    | CommandOutput.Error _ => { log with is_running := false, exit_code := some (-1) }
    | _ => log
  { log with output := log.output ++ [o] }

/-- A running command process (`executor.rs`, `struct RunningCommand`): the
model keeps the mpsc channel state of `output_rx` — the messages currently
buffered and whether the sender side has been dropped. -/
structure RunningCommand where
  buffered : List CommandOutput
  disconnected : Bool
deriving Repr, DecidableEq

/-- Information about a remote branch (`git/repository.rs`, `struct RemoteBranch`). -/
structure RemoteBranch where
  full_ref : String
  name : String
  remote : String
  commit : String
deriving Repr, DecidableEq

/-- Events that can occur during watching (`watcher.rs`, `enum WatcherEvent`).
`PathBuf` payloads are modelled as strings. -/
inductive WatcherEvent where
  | FetchStarted
  | FetchCompleted (output : Option String)
  | FetchFailed (message : String)
  | NewBranchesFound (names : List String)
  | WorktreeCreating (branch : String)
  | WorktreeCreated (branch : String) (path : String)
  | WorktreeCreateFailed (branch : String) (message : String)
  | HookStarted (branch : String)
  | HookOutput (branch : String) (output : CommandOutput)
  | HookCompleted (branch : String) (exit_code : Int)
deriving Repr, DecidableEq

/-- Does the character list start with the given prefix list? -/
def listStartsWith : List Char → List Char → Bool
  | _, [] => true
  | [], _ :: _ => false
  | c :: cs, p :: ps => c == p && listStartsWith cs ps

/-- Rust `str::starts_with`. -/
def strStartsWith (s p : String) : Bool :=
  listStartsWith s.data p.data

/-- Does the character list contain the given contiguous subsequence? -/
def listContainsSeq : List Char → List Char → Bool
  | [], needle => needle.isEmpty
  | c :: rest, needle => listStartsWith (c :: rest) needle || listContainsSeq rest needle

/-- Rust `str::contains(substring)`. -/
def containsSub (s sub : String) : Bool :=
  listContainsSeq s.data sub.data

/-- Rust `str::trim`: drop whitespace from both ends. -/
def strTrim (s : String) : String :=
  String.mk (((s.data.dropWhile Char.isWhitespace).reverse.dropWhile
    Char.isWhitespace).reverse)

/-- Rust `str::to_lowercase` (character-wise model). -/
def strToLower (s : String) : String :=
  String.mk (s.data.map Char.toLower)

/-- Rust `str::is_empty`. -/
def strIsEmpty (s : String) : Bool :=
  s.data.isEmpty

/-- Split a character list at every newline (the segments keep the
semantics of splitting on the separator: a trailing newline leaves a final
empty segment). -/
def splitOnNewline : List Char → List (List Char)
  | [] => [[]]
  | '\n' :: rest => [] :: splitOnNewline rest
  | c :: rest =>
      match splitOnNewline rest with
      | [] => [[c]]
      | seg :: segs => (c :: seg) :: segs

/-- Rust `str::lines()`: split on a newline, dropping a final empty segment
and a trailing carriage return on each line. -/
def rustLines (s : String) : List String :=
  let parts := (splitOnNewline s.data).map String.mk
  let parts :=
    match parts.getLast? with
    | some "" => parts.dropLast
    | _ => parts
  parts.map (fun l =>
    match l.data.getLast? with
    | some '\r' => String.mk l.data.dropLast
    | _ => l)

/-- One compiled token of a glob pattern (model of the `glob` crate used by
`Config::should_ignore_branch`). -/
inductive GlobToken where
  | star
  | anyChar
  | lit (c : Char)
  | charClass (negated : Bool) (singles : List Char) (ranges : List (Char × Char))
deriving Repr, DecidableEq

/-- Parse the members of a `[...]` character class; returns the singles, the
ranges, and the rest of the pattern after the closing bracket, or `none`
for an unclosed class. -/
def parseClassMembers : List Char → List Char → List (Char × Char) →
    Option (List Char × List (Char × Char) × List Char)
  | [], _, _ => none
  | ']' :: rest, singles, ranges => some (singles, ranges, rest)
  | a :: '-' :: b :: rest, singles, ranges =>
      if b = ']' then some (a :: '-' :: singles, ranges, rest)
      else parseClassMembers rest singles ((a, b) :: ranges)
  | a :: rest, singles, ranges => parseClassMembers rest (a :: singles) ranges

/-- Fuelled tokenizer for glob patterns (`glob::Pattern::new`); each step
consumes at least one character, so `length + 1` fuel always suffices. -/
def parseGlobTokensFuel : Nat → List Char → Option (List GlobToken)
  | 0, _ => none
  | _, [] => some []
  | fuel + 1, '*' :: rest =>
      (parseGlobTokensFuel fuel rest).map (fun ts => GlobToken.star :: ts)
  | fuel + 1, '?' :: rest =>
      (parseGlobTokensFuel fuel rest).map (fun ts => GlobToken.anyChar :: ts)
  | fuel + 1, '[' :: '!' :: rest =>
      match parseClassMembers rest [] [] with
      | none => none
      | some (singles, ranges, rest2) =>
          (parseGlobTokensFuel fuel rest2).map
            (fun ts => GlobToken.charClass true singles ranges :: ts)
  | fuel + 1, '[' :: rest =>
      match parseClassMembers rest [] [] with
      | none => none
      | some (singles, ranges, rest2) =>
          (parseGlobTokensFuel fuel rest2).map
            (fun ts => GlobToken.charClass false singles ranges :: ts)
  | fuel + 1, c :: rest =>
      (parseGlobTokensFuel fuel rest).map (fun ts => GlobToken.lit c :: ts)

/-- `glob::Pattern::new`: `none` models a `PatternError`. -/
def parseGlobTokens (pat : String) : Option (List GlobToken) :=
  parseGlobTokensFuel (pat.data.length + 1) pat.data

/-- Character-class membership for a glob token. -/
def inGlobClass (negated : Bool) (singles : List Char) (ranges : List (Char × Char))
    (c : Char) : Bool :=
  let m := singles.contains c || ranges.any (fun r => r.1 ≤ c && c ≤ r.2)
  if negated then !m else m

/-- `glob::Pattern::matches` with the default match options (a `*` may match
path separators). -/
def globMatchList : List GlobToken → List Char → Bool
  | [], [] => true
  | [], _ :: _ => false
  | GlobToken.star :: ps, [] => globMatchList ps []
  | GlobToken.star :: ps, c :: ts =>
      globMatchList ps (c :: ts) || globMatchList (GlobToken.star :: ps) ts
  | GlobToken.anyChar :: ps, _ :: ts => globMatchList ps ts
  | GlobToken.anyChar :: _, [] => false
  | GlobToken.lit c :: ps, d :: ts => c == d && globMatchList ps ts
  | GlobToken.lit _ :: _, [] => false
  | GlobToken.charClass neg singles ranges :: ps, d :: ts =>
      inGlobClass neg singles ranges d && globMatchList ps ts
  | GlobToken.charClass _ _ _ :: _, [] => false
termination_by p t => (t.length, p.length)

/-- The configuration fields the watcher core reads (`config.rs`,
`struct Config`; persistence fields and timestamps are owned elsewhere). -/
structure Config where
  post_create_command : Option String
  ignore_patterns : List String
  tracked_branches : List String
  untracked_branches : List String
  auto_create_worktrees : Bool
  worktree_base_dir : String
  remote_name : String
deriving Repr, DecidableEq

/-- `Config::should_ignore_branch` (config.rs): explicit untracked list, then
the glob ignore patterns (an invalid pattern is skipped). -/
def Config.should_ignore_branch (cfg : Config) (branch : String) : Bool :=
  cfg.untracked_branches.contains branch ||
    cfg.ignore_patterns.any (fun pat =>
      match parseGlobTokens pat with
      | some toks => globMatchList toks branch.data
      | none => false)

/-- Rust `Path::join` with a relative component. -/
def pathJoin (a b : String) : String := a ++ "/" ++ b

/-- Rust `str::replace` with a single-character pattern and the
single-character replacement used by `sanitize_branch_name`. -/
def String.replaceChar (s : String) (a b : Char) : String :=
  String.mk (s.data.map (fun c => if c = a then b else c))

/-- `sanitize_branch_name` (config.rs): replace path- and shell-hostile
characters by a dash. -/
def sanitize_branch_name (branch : String) : String :=
  ((((((((branch.replaceChar '/' '-').replaceChar '\\' '-').replaceChar ':' '-').replaceChar
      '*' '-').replaceChar '?' '-').replaceChar '\"' '-').replaceChar '<' '-').replaceChar
      '>' '-').replaceChar '|' '-'

/-- `Config::get_worktree_path` (config.rs). -/
def Config.get_worktree_path (cfg : Config) (repo_root : String) (branch : String) : String :=
  pathJoin (pathJoin repo_root cfg.worktree_base_dir) (sanitize_branch_name branch)

/-- The single per-character substitution that the `sanitize_branch_name`
replacement chain performs (innermost replacement first). -/
def sanitizeStep (c : Char) : Char :=
  let c := if c = '/' then '-' else c
  let c := if c = '\\' then '-' else c
  let c := if c = ':' then '-' else c
  let c := if c = '*' then '-' else c
  let c := if c = '?' then '-' else c
  let c := if c = '\"' then '-' else c
  let c := if c = '<' then '-' else c
  let c := if c = '>' then '-' else c
  let c := if c = '|' then '-' else c
  c

/-- Captured result of one finished external process (`std::process::Output`):
exit status plus the two captured streams. -/
structure ProcOutput where
  success : Bool
  stdout : String
  stderr : String
deriving Repr, DecidableEq

/-- The nonempty trimmed lines of stderr-then-stdout collected by the fetch
thread (`watcher.rs`, lines 128–135). -/
def collectMessages (stderr stdout : String) : List String :=
  (rustLines stderr ++ rustLines stdout).filterMap (fun line =>
    let trimmed := strTrim line
    if strIsEmpty trimmed then none else some trimmed)

/-- One stderr line counts as a real error for the fetch classifier
(`watcher.rs`, lines 146–153). -/
def is_real_error_line (line : String) : Bool :=
  let l := strToLower (strTrim line)
  !strIsEmpty l && !strStartsWith l "warning" && !containsSub l "post-quantum" &&
    !strStartsWith l "hint:" && !strStartsWith l "from "

/-- The single event the background fetch thread sends (`watcher.rs`,
lines 115–172): success keeps any captured messages, a failing exit status
is downgraded to success when every stderr line is benign, and a spawn
error reports the error text. -/
def classify_fetch (result : Except String ProcOutput) : WatcherEvent :=
  match result with
  | Except.error e => WatcherEvent.FetchFailed e
  | Except.ok o =>
      let messages := collectMessages o.stderr o.stdout
      let output_msg := if messages.isEmpty then none else some (String.intercalate "\n" messages)
      if o.success then WatcherEvent.FetchCompleted output_msg
      else if (rustLines o.stderr).any is_real_error_line then
        WatcherEvent.FetchFailed o.stderr
      else WatcherEvent.FetchCompleted output_msg

/-- `HashMap::contains_key` on the association-list model of
`known_branches`. -/
def containsKey (m : List (String × RemoteBranch)) (k : String) : Bool :=
  m.any (fun kv => kv.1 == k)

/-- `HashMap::insert` on the association-list model: overwrite the existing
entry or append a new one. -/
def insertKV (m : List (String × RemoteBranch)) (k : String) (v : RemoteBranch) :
    List (String × RemoteBranch) :=
  if containsKey m k then m.map (fun kv => if kv.1 == k then (k, v) else kv)
  else m ++ [(k, v)]

/-- `HashMap::get` on the association-list model. -/
def lookupKV (m : List (String × RemoteBranch)) (k : String) : Option RemoteBranch :=
  (m.find? (fun kv => kv.1 == k)).map (fun kv => kv.2)

/-- Background watcher state (`watcher.rs`, `struct Watcher`). -/
structure Watcher where
  known_branches : List (String × RemoteBranch)
  running_hooks : List (String × RunningCommand)
  command_logs : List CommandLog
  fetch_in_progress : Bool
  pending_branches : List String
  current_processing : Option String

/-- `Watcher::new`. -/
def Watcher.new : Watcher :=
  { known_branches := [], running_hooks := [], command_logs := [],
    fetch_in_progress := false, pending_branches := [], current_processing := none }

/-- `Watcher::is_pending`. -/
def Watcher.is_pending (w : Watcher) (branch : String) : Bool :=
  w.pending_branches.contains branch

/-- `Watcher::is_current`. -/
def Watcher.is_current (w : Watcher) (branch : String) : Bool :=
  (w.current_processing.map (fun b => b == branch)).getD false

/-- `Watcher::start_fetch` (watcher.rs, lines 101–113): the returned flag
records whether a background fetch thread was spawned. -/
def Watcher.start_fetch (w : Watcher) : Watcher × List WatcherEvent × Bool :=
  if w.fetch_in_progress then (w, [], false)
  else ({ w with fetch_in_progress := true }, [WatcherEvent.FetchStarted], true)

/-- `Watcher::on_fetch_failed`. -/
def Watcher.on_fetch_failed (w : Watcher) : Watcher :=
  { w with fetch_in_progress := false }

/-- `HashMap::insert` for `running_hooks`. -/
def insertHook (m : List (String × RunningCommand)) (k : String) (v : RunningCommand) :
    List (String × RunningCommand) :=
  if m.any (fun kv => kv.1 == k) then m.map (fun kv => if kv.1 == k then (k, v) else kv)
  else m ++ [(k, v)]

/-- `Watcher::run_hook` (watcher.rs, lines 462–480): emit `HookStarted`,
push a fresh command log, and register the hook's channel (freshly spawned,
so nothing is buffered yet). -/
def Watcher.run_hook (w : Watcher) (branch command : String) : Watcher × List WatcherEvent :=
  let log := CommandLog.new branch command
  ({ w with command_logs := w.command_logs ++ [log],
            running_hooks := insertHook w.running_hooks branch ⟨[], false⟩ },
   [WatcherEvent.HookStarted branch])

/-- `Watcher::add_worktree_log` (watcher.rs, lines 550–563). -/
def Watcher.add_worktree_log (w : Watcher) (branch : String) (messages : List String) : Watcher :=
  let log := CommandLog.new branch ("git worktree add (" ++ branch ++ ")")
  let log := messages.foldl (fun l line =>
      if strStartsWith line "ERROR:" then l.add_output (CommandOutput.Stderr line)
      else l.add_output (CommandOutput.Stdout line)) log
  let log := log.add_output (CommandOutput.Exit 0)
  { w with command_logs := w.command_logs ++ [log] }

/-- `Watcher::create_worktree` (watcher.rs, lines 412–459); `createRes` is
the observed result of `WorktreeManager::create`. -/
def Watcher.create_worktree (w : Watcher) (cfg : Config) (repo_root : String)
    (branch : String) (createRes : Except String (List String)) :
    Watcher × List WatcherEvent :=
  let worktree_path := cfg.get_worktree_path repo_root branch
  match createRes with
  | Except.error e =>
      ({ w with current_processing := none },
       [WatcherEvent.WorktreeCreating branch, WatcherEvent.WorktreeCreateFailed branch e])
  | Except.ok log_messages =>
      let w := w.add_worktree_log branch log_messages
      let evs := [WatcherEvent.WorktreeCreating branch,
                  WatcherEvent.WorktreeCreated branch worktree_path]
      match cfg.post_create_command with
      | some cmd =>
          let r := w.run_hook branch cmd
          (r.1, evs ++ r.2)
      | none => ({ w with current_processing := none }, evs)

/-- `Watcher::process_next_branch` (watcher.rs, lines 263–280): pop the head
of the pending queue into `current_processing` and create its worktree. -/
def Watcher.process_next_branch (w : Watcher) (cfg : Config) (repo_root : String)
    (createRes : Except String (List String)) : Watcher × List WatcherEvent :=
  match w.pending_branches with
  | [] => ({ w with current_processing := none }, [])
  | branch :: rest =>
      let w := { w with pending_branches := rest, current_processing := some branch }
      w.create_worktree cfg repo_root branch createRes

/-- `Watcher::queue_branch` (watcher.rs, lines 316–335). -/
def Watcher.queue_branch (w : Watcher) (cfg : Config) (repo_root : String)
    (branch : String) (createRes : Except String (List String)) :
    Watcher × List WatcherEvent :=
  if w.is_pending branch || w.is_current branch then (w, [])
  else
    let w := { w with pending_branches := w.pending_branches ++ [branch] }
    if w.current_processing = none then w.process_next_branch cfg repo_root createRes
    else (w, [])

/-- `Watcher::try_process_next` (watcher.rs, lines 399–409). -/
def Watcher.try_process_next (w : Watcher) (cfg : Config) (repo_root : String)
    (createRes : Except String (List String)) : Watcher × List WatcherEvent :=
  if w.current_processing.isNone && !w.pending_branches.isEmpty then
    w.process_next_branch cfg repo_root createRes
  else (w, [])

/-- `iter_mut().rev().find(...)` in `check_running_hooks`: add the output to
the last log whose branch matches. -/
def updateLastLog : List CommandLog → String → CommandOutput → List CommandLog
  | [], _, _ => []
  | l :: ls, branch, o =>
      if ls.any (fun x => x.branch == branch) then l :: updateLastLog ls branch o
      else if l.branch == branch then l.add_output o :: ls
      else l :: ls

/-- Drain one hook's channel (`watcher.rs`, lines 346–384): translate each
buffered message into an event, record it in the logs, and report whether
the hook reached a terminal message (exit, spawn error, or disconnect). -/
def drainHook (branch : String) (msgs : List CommandOutput) (disconnected : Bool)
    (logs : List CommandLog) : List CommandLog × List WatcherEvent × Bool :=
  match msgs with
  | [] => (logs, [], disconnected)
  | o :: rest =>
      let logs2 := updateLastLog logs branch o
      let r := drainHook branch rest disconnected logs2
      match o with
      | CommandOutput.Exit code =>
          (r.1, WatcherEvent.HookCompleted branch code :: r.2.1, true)
      | CommandOutput.Error _ =>
          (r.1, WatcherEvent.HookCompleted branch (-1) :: r.2.1, true)
      | _ => (r.1, WatcherEvent.HookOutput branch o :: r.2.1, r.2.2)

/-- Drain every running hook in turn, collecting updated logs, events, and
the list of completed branches. -/
def drainAllHooks (hooks : List (String × RunningCommand)) (logs : List CommandLog) :
    List CommandLog × List WatcherEvent × List String :=
  match hooks with
  | [] => (logs, [], [])
  | h :: rest =>
      let d := drainHook h.1 h.2.buffered h.2.disconnected logs
      let r := drainAllHooks rest d.1
      (r.1, d.2.1 ++ r.2.1, (if d.2.2 then [h.1] else []) ++ r.2.2)

/-- `Watcher::check_running_hooks` (watcher.rs, lines 343–396): drain all
hook channels, then remove finished hooks and clear `current_processing`
when it was the finished branch. -/
def Watcher.check_running_hooks (w : Watcher) : Watcher × List WatcherEvent :=
  let d := drainAllHooks w.running_hooks w.command_logs
  let emptied := w.running_hooks.map (fun h => (h.1, RunningCommand.mk [] h.2.disconnected))
  let w := { w with command_logs := d.1, running_hooks := emptied }
  let w := d.2.2.foldl (fun w branch =>
      { w with running_hooks := w.running_hooks.filter (fun h => !(h.1 == branch)),
               current_processing :=
                 if w.current_processing = some branch then none
                 else w.current_processing }) w
  (w, d.2.1)

/-- Background hook progress: the reader/waiter threads of a running hook
put more messages on its channel (and drop the sender when they finish). -/
def Watcher.hook_produce (w : Watcher) (branch : String) (msgs : List CommandOutput)
    (dropSender : Bool) : Watcher :=
  { w with running_hooks := w.running_hooks.map (fun h =>
      if h.1 == branch then
        (h.1, RunningCommand.mk (h.2.buffered ++ msgs) (h.2.disconnected || dropSender))
      else h) }

/-- The new-remote-branch loop of `Watcher::on_fetch_complete` (watcher.rs,
lines 200–209): insert unseen remote branches and collect the non-ignored
ones, in scan order. -/
def findNewRemote (known : List (String × RemoteBranch)) (cfg : Config) :
    List RemoteBranch → List (String × RemoteBranch) × List String
  | [] => (known, [])
  | b :: rest =>
      if containsKey known b.name then findNewRemote known cfg rest
      else
        match findNewRemote (insertKV known b.name b) cfg rest with
        | (kn, new) =>
            (kn, if cfg.should_ignore_branch b.name then new else b.name :: new)

/-- The local-branch loop of `Watcher::on_fetch_complete` (watcher.rs,
lines 212–217): add local branches only if not already tracked. -/
def addLocals (known : List (String × RemoteBranch)) :
    List RemoteBranch → List (String × RemoteBranch)
  | [] => known
  | b :: rest =>
      if containsKey known b.name then addLocals known rest
      else addLocals (insertKV known b.name b) rest

/-- The removal step of `Watcher::on_fetch_complete` (watcher.rs,
lines 219–228): retain only branches reported by the fresh scans. -/
def retainCurrent (known : List (String × RemoteBranch)) (names : List String) :
    List (String × RemoteBranch) :=
  known.filter (fun kv => names.contains kv.1)

/-- `Watcher::on_fetch_complete` (watcher.rs, lines 176–260). The oracles:
the fresh remote scan (which can fail), the fresh local scan,
`has_worktree_for_branch(..).unwrap_or(false)`, and the result of the one
worktree creation this call may start. -/
def Watcher.on_fetch_complete (w : Watcher) (cfg : Config) (repo_root : String)
    (remote_res : Except String (List RemoteBranch)) (local_branches : List RemoteBranch)
    (hasWorktree : String → Bool) (createRes : Except String (List String)) :
    Watcher × List WatcherEvent :=
  let w := { w with fetch_in_progress := false }
  match remote_res with
  | Except.error _ => (w, [])
  | Except.ok remote_branches =>
      let r := findNewRemote w.known_branches cfg remote_branches
      let known := addLocals r.1 local_branches
      let current_names := remote_branches.map (fun b => b.name) ++
        local_branches.map (fun b => b.name)
      let known := retainCurrent known current_names
      let new_branches := r.2
      let w := { w with known_branches := known }
      if new_branches.isEmpty then (w, [])
      else
        let evs := [WatcherEvent.NewBranchesFound new_branches]
        if cfg.auto_create_worktrees then
          let w := new_branches.foldl (fun w b =>
              if cfg.should_ignore_branch b then w
              else if hasWorktree b then w
              else if w.pending_branches.contains b then w
              else { w with pending_branches := w.pending_branches ++ [b] }) w
          if w.current_processing.isNone && !w.pending_branches.isEmpty then
            let r2 := w.process_next_branch cfg repo_root createRes
            (r2.1, evs ++ r2.2)
          else (w, evs)
        else (w, evs)

/-- One operation of the watcher subsystem, with the oracle data its
external collaborators provide during that operation. -/
inductive WOp where
  | startFetch
  | fetchFailed
  | fetchComplete (remote_res : Except String (List RemoteBranch))
      (local_branches : List RemoteBranch) (hasWorktree : String → Bool)
      (createRes : Except String (List String)) (cfg : Config) (repo_root : String)
  | queueBranch (branch : String) (createRes : Except String (List String))
      (cfg : Config) (repo_root : String)
  | tryProcessNext (createRes : Except String (List String)) (cfg : Config) (repo_root : String)
  | checkRunningHooks
  | hookProduce (branch : String) (msgs : List CommandOutput) (dropSender : Bool)

/-- The acknowledgement operations that clear `fetch_in_progress`. -/
def WOp.isFetchAck : WOp → Bool
  | WOp.fetchComplete _ _ _ _ _ _ => true
  | WOp.fetchFailed => true
  | _ => false

/-- Apply one operation to the watcher state. -/
def Watcher.step (w : Watcher) : WOp → Watcher × List WatcherEvent
  | WOp.startFetch => let r := w.start_fetch; (r.1, r.2.1)
  | WOp.fetchFailed => (w.on_fetch_failed, [])
  | WOp.fetchComplete remote_res locals hasW createRes cfg root =>
      w.on_fetch_complete cfg root remote_res locals hasW createRes
  | WOp.queueBranch branch createRes cfg root => w.queue_branch cfg root branch createRes
  | WOp.tryProcessNext createRes cfg root => w.try_process_next cfg root createRes
  | WOp.checkRunningHooks => w.check_running_hooks
  | WOp.hookProduce branch msgs dropSender => (w.hook_produce branch msgs dropSender, [])

/-- Run a sequence of operations, concatenating the emitted events. -/
def Watcher.run (w : Watcher) (ops : List WOp) : Watcher × List WatcherEvent :=
  ops.foldl (fun acc op =>
      let r := acc.1.step op
      (r.1, acc.2 ++ r.2)) (w, [])

/-- The driver's reaction to a drained event (`app/actions.rs`,
`App::process_watcher_events`): the cases that advance the provisioning
queue via `try_process_next`. -/
def driver_advance_on (cfg : Config) : WatcherEvent → Bool
  | WatcherEvent.WorktreeCreateFailed _ _ => true
  | WatcherEvent.WorktreeCreated _ _ => cfg.post_create_command.isNone
  | WatcherEvent.HookCompleted _ _ => true
  | _ => false

/-- The branch the next `try_process_next` call would create a worktree
for (head of the pending queue). -/
def headBranch (w : Watcher) : String :=
  w.pending_branches.headD ""

/-- The driver's `while let Ok(event) = try_recv` drain loop
(`app/actions.rs`): handle each queued event, appending any events the
handlers emit; `createResF` gives the creation result per branch. -/
def drainLoop (cfg : Config) (repo_root : String)
    (createResF : String → Except String (List String)) :
    Nat → Watcher → List WatcherEvent → Watcher × List WatcherEvent
  | 0, w, _ => (w, [])
  | _ + 1, w, [] => (w, [])
  | fuel + 1, w, ev :: rest =>
      if driver_advance_on cfg ev then
        let r := w.try_process_next cfg repo_root (createResF (headBranch w))
        let r2 := drainLoop cfg repo_root createResF fuel r.1 (rest ++ r.2)
        (r2.1, r.2 ++ r2.2)
      else drainLoop cfg repo_root createResF fuel w rest

/-- Captured result of one `git worktree add` invocation. -/
structure CmdOut where
  success : Bool
  stdout : String
  stderr : String
deriving Repr, DecidableEq

/-- The nonempty output lines captured into the creation log
(`git/worktree.rs`, lines 158–162). -/
def nonEmptyTrimLines (stdout stderr : String) : List String :=
  (rustLines stdout ++ rustLines stderr).filter (fun line => !strIsEmpty (strTrim line))

/-- The tail of `WorktreeManager::create` (git/worktree.rs, lines 205–213):
verify the worktree directory actually exists. -/
def createFinish (log : List String) (dir_exists_after : Bool) (path : String) :
    Except String (List String) :=
  if !dir_exists_after then
    Except.error ("Worktree directory was not created: " ++ path)
  else Except.ok (log ++ ["✓ Worktree created successfully at: " ++ path])

/-- `WorktreeManager::create` (git/worktree.rs, lines 117–214). Oracles:
whether the target path exists before the attempt, the observed result of
each `git worktree add` invocation (`Except.error` is a spawn failure),
and whether the directory exists afterwards. The second component records
the `git worktree add` invocations actually made, `true` meaning the
`-b` flag was passed. -/
def WorktreeManager_create (branch : String) (path_exists : Bool)
    (first : Except String CmdOut) (retry : Except String CmdOut)
    (dir_exists_after : Bool) (path remote : String) :
    Except String (List String) × List Bool :=
  let log0 := ["Creating worktree at: " ++ path]
  if path_exists then
    (Except.error ("Worktree path already exists: " ++ path), [])
  else
    let remote_ref := remote ++ "/" ++ branch
    let log1 := log0 ++
      ["$ git worktree add --track -b " ++ branch ++ " " ++ path ++ " " ++ remote_ref]
    match first with
    | Except.error e => (Except.error e, [true])
    | Except.ok o =>
        let log2 := log1 ++ nonEmptyTrimLines o.stdout o.stderr
        if !o.success then
          if containsSub o.stderr "already exists" then
            let log3 := log2 ++
              ["Branch exists locally, retrying: git worktree add " ++ path ++ " " ++ branch]
            match retry with
            | Except.error e => (Except.error e, [true, false])
            | Except.ok o2 =>
                let log4 := log3 ++ nonEmptyTrimLines o2.stdout o2.stderr
                if !o2.success then
                  (Except.error ("git worktree add failed: " ++ o2.stderr), [true, false])
                else (createFinish log4 dir_exists_after path, [true, false])
          else (Except.error ("git worktree add failed: " ++ o.stderr), [true])
        else (createFinish log2 dir_exists_after path, [true])

/-- Project the stdout payload of a channel message. -/
def stdoutLine : CommandOutput → Option String
  | CommandOutput.Stdout s => some s
  | _ => none

/-- Project the stderr payload of a channel message. -/
def stderrLine : CommandOutput → Option String
  | CommandOutput.Stderr s => some s
  | _ => none

/-- The possible interleavings of the stdout and stderr reader threads of
`CommandExecutor::run_command_with_output` (executor.rs, lines 113–139):
each stream's lines keep their order, the two streams merge arbitrarily. -/
inductive Interleaving : List String → List String → List CommandOutput → Prop
  | nil : Interleaving [] [] []
  | left {x : String} {xs ys : List String} {zs : List CommandOutput} :
      Interleaving xs ys zs → Interleaving (x :: xs) ys (CommandOutput.Stdout x :: zs)
  | right {y : String} {xs ys : List String} {zs : List CommandOutput} :
      Interleaving xs ys zs → Interleaving xs (y :: ys) (CommandOutput.Stderr y :: zs)

/-- The messages `run_command_with_output` itself sends on the channel
(executor.rs, lines 89–157): the merged reader lines, then — after the
process exit and both reader joins — the exit code; a spawn error sends
nothing here, a wait error stops after the lines. -/
def run_command_with_output_msgs (spawn : Except String Unit)
    (merged : List CommandOutput) (wait : Except String Int) : List CommandOutput :=
  match spawn with
  | Except.error _ => []
  | Except.ok _ =>
      match wait with
      | Except.ok code => merged ++ [CommandOutput.Exit code]
      | Except.error _ => merged

/-- Everything `CommandExecutor::run_async`'s thread sends (executor.rs,
lines 74–80): the inner helper's messages, then an `Error` message when the
helper returned an error. -/
def run_async_msgs (spawn : Except String Unit) (merged : List CommandOutput)
    (wait : Except String Int) : List CommandOutput :=
  run_command_with_output_msgs spawn merged wait ++
    (match spawn with
     | Except.error e => [CommandOutput.Error e]
     | Except.ok _ =>
         match wait with
         | Except.error e => [CommandOutput.Error e]
         | Except.ok _ => [])

/-- A watcher whose only activity is one hook running for `branch` whose
channel currently buffers `msgs`. -/
def hookWatcher (branch : String) (msgs : List CommandOutput) : Watcher :=
  { Watcher.new with running_hooks := [(branch, RunningCommand.mk msgs false)],
                     current_processing := some branch }

/-- The branch of a `WorktreeCreating` event. -/
def creatingName : WatcherEvent → Option String
  | WatcherEvent.WorktreeCreating b => some b
  | _ => none

/-- A configuration with a post-create hook and no auto-creation, used for
concrete queue scenarios. -/
def cfgHook : Config :=
  { post_create_command := some "npm install", ignore_patterns := [],
    tracked_branches := [], untracked_branches := [], auto_create_worktrees := false,
    worktree_base_dir := "..", remote_name := "origin" }

/-- A configuration with auto-creation enabled and no post-create hook. -/
def cfgPlain : Config :=
  { post_create_command := none, ignore_patterns := [],
    tracked_branches := [], untracked_branches := [], auto_create_worktrees := true,
    worktree_base_dir := "..", remote_name := "origin" }

/-- A configuration with auto-creation enabled and a post-create hook. -/
def cfgAuto : Config :=
  { cfgHook with auto_create_worktrees := true }

/-- A remote branch record for branch `n` on `origin`. -/
def rb (n : String) : RemoteBranch :=
  { full_ref := "origin/" ++ n, name := n, remote := "origin", commit := "c0" }

/-- Successful creation result used in concrete scenarios. -/
def okRes : Except String (List String) := Except.ok ["ok"]

/-- Concrete FIFO scenario: enqueue three branches while a hook keeps the
queue busy, then let each hook finish and the driver advance the queue. -/
def opsFifo : List WOp :=
  [WOp.queueBranch "A" okRes cfgHook "r",
   WOp.queueBranch "B" okRes cfgHook "r",
   WOp.queueBranch "C" okRes cfgHook "r",
   WOp.hookProduce "A" [CommandOutput.Exit 0] false,
   WOp.checkRunningHooks,
   WOp.tryProcessNext okRes cfgHook "r",
   WOp.hookProduce "B" [CommandOutput.Exit 0] false,
   WOp.checkRunningHooks,
   WOp.tryProcessNext okRes cfgHook "r",
   WOp.hookProduce "C" [CommandOutput.Exit 0] false,
   WOp.checkRunningHooks,
   WOp.tryProcessNext okRes cfgHook "r"]

/-- Concrete scenario reaching a state where the branch being processed is
auto-queued again: a manually queued unknown branch is rediscovered by a
fetch while its hook still runs and `has_worktree_for_branch` reports
`false` (as it does whenever `git worktree list` fails, via
`unwrap_or(false)`). -/
def opsOverlap : List WOp :=
  [WOp.queueBranch "x" okRes cfgHook "r",
   WOp.fetchComplete (Except.ok [rb "x"]) [] (fun _ => false) okRes cfgAuto "r"]

/-- Concrete scenario in which a queued branch disappears from the scans:
two branches are discovered, one is provisioned (hook still running) while
the other waits in `pending`, and the next fetch no longer reports the
waiting branch. -/
def opsDrop : List WOp :=
  [WOp.fetchComplete (Except.ok [rb "x", rb "y"]) [] (fun _ => false) okRes cfgHook "r",
   WOp.queueBranch "y" okRes cfgHook "r",
   WOp.queueBranch "x" okRes cfgHook "r",
   WOp.fetchComplete (Except.ok [rb "y"]) [] (fun _ => false) okRes cfgHook "r"]

/-- Per-branch creation results for the no-stall scenario: branch `B`
succeeds, everything else fails. -/
def resStall : String → Except String (List String) :=
  fun b => if b = "B" then Except.ok ["ok"] else Except.error "boom"

/-- The fetch completion of the no-stall scenario: branches `A` and `B` are
discovered and auto-queued, and `A`'s worktree creation fails. -/
def stallFetch : Watcher × List WatcherEvent :=
  Watcher.new.on_fetch_complete cfgPlain "r" (Except.ok [rb "A", rb "B"]) []
    (fun _ => false) (Except.error "boom")

/-- The driver then drains the emitted events. -/
def stallDrained : Watcher × List WatcherEvent :=
  drainLoop cfgPlain "r" resStall 10 stallFetch.1 stallFetch.2

/-- Prior registry for the concrete reconciliation example. -/
def knownPrior : List (String × RemoteBranch) :=
  [("main", rb "main"), ("feature-a", rb "feature-a")]

/-- The concrete reconciliation run: prior registry `{main, feature-a}`,
fresh remote scan `{main, feature-b}`, no local branches. -/
def reconcileRes : Watcher × List WatcherEvent :=
  ({ Watcher.new with known_branches := knownPrior } : Watcher).on_fetch_complete
    cfgHook "r" (Except.ok [rb "main", rb "feature-b"]) [] (fun _ => false)
    (Except.error "unused")

/-- The replaced-character list of `sanitize_branch_name`. -/
def sanitizedChars : List Char := ['/', '\\', ':', '*', '?', '\"', '<', '>', '|']

/-- A watcher that knows branch x and holds it pending. -/
def wPendingX : Watcher :=
  { Watcher.new with pending_branches := ["x"], known_branches := [("x", rb "x")] }

/-- The composed per-character function of the nine replacements, in
application order. -/
def sanitizeChain : Char → Char :=
  (fun c => if c = '|' then '-' else c) ∘
    (fun c => if c = '>' then '-' else c) ∘
      (fun c => if c = '<' then '-' else c) ∘
        (fun c => if c = '\"' then '-' else c) ∘
          (fun c => if c = '?' then '-' else c) ∘
            (fun c => if c = '*' then '-' else c) ∘
              (fun c => if c = ':' then '-' else c) ∘
                (fun c => if c = '\\' then '-' else c) ∘ fun c => if c = '/' then '-' else c

theorem sanitizeStep_eq (c : Char) :
    sanitizeStep c = if c ∈ sanitizedChars then '-' else c := by
  by_cases h1 : c = '/'
  · subst h1; decide
  by_cases h2 : c = '\\'
  · subst h2; decide
  by_cases h3 : c = ':'
  · subst h3; decide
  by_cases h4 : c = '*'
  · subst h4; decide
  by_cases h5 : c = '?'
  · subst h5; decide
  by_cases h6 : c = '\"'
  · subst h6; decide
  by_cases h7 : c = '<'
  · subst h7; decide
  by_cases h8 : c = '>'
  · subst h8; decide
  by_cases h9 : c = '|'
  · subst h9; decide
  simp [sanitizeStep, sanitizedChars, h1, h2, h3, h4, h5, h6, h7, h8, h9]

theorem sanitizeChain_eq (c : Char) : sanitizeChain c = sanitizeStep c := by
  rw [sanitizeStep_eq]
  by_cases h1 : c = '/'
  · subst h1; decide
  by_cases h2 : c = '\\'
  · subst h2; decide
  by_cases h3 : c = ':'
  · subst h3; decide
  by_cases h4 : c = '*'
  · subst h4; decide
  by_cases h5 : c = '?'
  · subst h5; decide
  by_cases h6 : c = '\"'
  · subst h6; decide
  by_cases h7 : c = '<'
  · subst h7; decide
  by_cases h8 : c = '>'
  · subst h8; decide
  by_cases h9 : c = '|'
  · subst h9; decide
  simp [sanitizeChain, sanitizedChars, Function.comp, h1, h2, h3, h4, h5, h6, h7, h8, h9]

theorem sanitizeStep_idem (c : Char) : sanitizeStep (sanitizeStep c) = sanitizeStep c := by
  by_cases h : c ∈ sanitizedChars
  · rw [sanitizeStep_eq c, if_pos h]; decide
  · rw [sanitizeStep_eq c, if_neg h, sanitizeStep_eq c, if_neg h]

theorem sanitize_branch_name_data (s : String) :
    (sanitize_branch_name s).data = s.data.map sanitizeStep := by
  simp only [sanitize_branch_name, String.replaceChar, List.map_map]
  show List.map sanitizeChain s.data = List.map sanitizeStep s.data
  exact List.map_congr_left (fun c _ => sanitizeChain_eq c)

theorem sanitize_branch_name_idem (s : String) :
    sanitize_branch_name (sanitize_branch_name s) = sanitize_branch_name s := by
  apply String.ext
  rw [sanitize_branch_name_data, sanitize_branch_name_data, List.map_map,
    Function.comp_def]
  refine List.map_congr_left (fun c _ => ?_)
  exact sanitizeStep_idem c

/-- C10: `sanitize_branch_name` is idempotent — every replaced character is
mapped to a dash and a dash is never replaced — so `get_worktree_path`
yields the same directory for a branch name and its sanitized form, and
distinct branch names (such as `a/b` and `a-b`) collide on one worktree
path. -/
theorem c10_sanitize_idempotent :
    (∀ s : String, sanitize_branch_name (sanitize_branch_name s) = sanitize_branch_name s) ∧
    (∀ c : Char, c ∈ sanitizedChars → sanitizeStep c = '-') ∧
    sanitizeStep '-' = '-' ∧
    (∀ (cfg : Config) (root branch : String),
        cfg.get_worktree_path root (sanitize_branch_name branch) =
          cfg.get_worktree_path root branch) ∧
    (∀ (cfg : Config) (root : String),
        cfg.get_worktree_path root "a/b" = cfg.get_worktree_path root "a-b") ∧
    ("a/b" : String) ≠ "a-b" := by
  refine ⟨sanitize_branch_name_idem, ?_, by decide, ?_, ?_, by decide⟩
  · intro c hc
    rw [sanitizeStep_eq, if_pos hc]
  · intro cfg root branch
    simp only [Config.get_worktree_path]
    rw [sanitize_branch_name_idem]
  · intro cfg root
    simp only [Config.get_worktree_path]
    have h : sanitize_branch_name "a/b" = sanitize_branch_name "a-b" := by decide
    rw [h]

theorem c10_sanitize_idempotent_witness :
    '/' ∈ sanitizedChars ∧ sanitizeStep '/' = '-' :=
  ⟨by decide, c10_sanitize_idempotent.2.1 '/' (by decide)⟩

theorem is_real_error_line_iff (line : String) :
    is_real_error_line line = true ↔
      (strIsEmpty (strToLower (strTrim line)) = false ∧
       strStartsWith (strToLower (strTrim line)) "warning" = false ∧
       containsSub (strToLower (strTrim line)) "post-quantum" = false ∧
       strStartsWith (strToLower (strTrim line)) "hint:" = false ∧
       strStartsWith (strToLower (strTrim line)) "from " = false) := by
  simp [is_real_error_line, Bool.and_eq_true, Bool.not_eq_true', and_assoc]

/-- C5: on a failing fetch exit status the event is `FetchFailed(stderr)`
iff some stderr line is non-benign — nonempty after trimming and
lowercasing and neither starting with `warning`, `hint:`, `from ` nor
containing `post-quantum` — while all-benign stderr downgrades the outcome
to `FetchCompleted`; the two concrete error texts behave as specified. -/
theorem c5_fetch_classification :
    (∀ stdout stderr : String,
        (classify_fetch (Except.ok ⟨false, stdout, stderr⟩) =
            WatcherEvent.FetchFailed stderr ↔
          ∃ line ∈ rustLines stderr,
            strIsEmpty (strToLower (strTrim line)) = false ∧
            strStartsWith (strToLower (strTrim line)) "warning" = false ∧
            containsSub (strToLower (strTrim line)) "post-quantum" = false ∧
            strStartsWith (strToLower (strTrim line)) "hint:" = false ∧
            strStartsWith (strToLower (strTrim line)) "from " = false)) ∧
    classify_fetch (Except.ok ⟨false, "", "warning: redirecting to https://...\n"⟩) =
      WatcherEvent.FetchCompleted (some "warning: redirecting to https://...") ∧
    classify_fetch (Except.ok ⟨false, "", "fatal: unable to access ...\n"⟩) =
      WatcherEvent.FetchFailed "fatal: unable to access ...\n" := by
  refine ⟨?_, by decide, by decide⟩
  intro stdout stderr
  by_cases h : (rustLines stderr).any is_real_error_line = true
  · have hc : classify_fetch (Except.ok ⟨false, stdout, stderr⟩) =
        WatcherEvent.FetchFailed stderr := by
      simp [classify_fetch, h]
    rw [hc]
    simp only [true_iff]
    rw [List.any_eq_true] at h
    obtain ⟨line, hmem, hp⟩ := h
    exact ⟨line, hmem, (is_real_error_line_iff line).mp hp⟩
  · have hf : (rustLines stderr).any is_real_error_line = false :=
      Bool.eq_false_iff.mpr h
    have hc : classify_fetch (Except.ok ⟨false, stdout, stderr⟩) =
        WatcherEvent.FetchCompleted
          (if (collectMessages stderr stdout).isEmpty then none
           else some (String.intercalate "\n" (collectMessages stderr stdout))) := by
      simp [classify_fetch, hf]
    rw [hc]
    constructor
    · intro hcontra
      exact absurd hcontra (by simp)
    · intro hex
      obtain ⟨line, hmem, hp⟩ := hex
      have hr : is_real_error_line line = true := (is_real_error_line_iff line).mpr hp
      rw [List.any_eq_false] at hf
      exact absurd hr (by simp [hf line hmem])

/-- C9: worktree creation fails fast with no `git worktree add` attempt when
the target path already exists; when the first attempt fails with an
"already exists" error it retries exactly once without the `-b` flag, and
errors if the retry fails or the directory is missing afterwards; a
non-"already exists" failure is not retried. -/
theorem c9_create_retry :
    (∀ (branch : String) (first retry : Except String CmdOut) (dir : Bool)
        (path remote : String),
        WorktreeManager_create branch true first retry dir path remote =
          (Except.error ("Worktree path already exists: " ++ path), [])) ∧
    (∀ (branch out err : String) (retry : Except String CmdOut) (dir : Bool)
        (path remote : String),
        containsSub err "already exists" = true →
        (WorktreeManager_create branch false (Except.ok ⟨false, out, err⟩)
            retry dir path remote).2 = [true, false]) ∧
    (∀ (branch out err out2 err2 : String) (dir : Bool) (path remote : String),
        containsSub err "already exists" = true →
        (WorktreeManager_create branch false (Except.ok ⟨false, out, err⟩)
            (Except.ok ⟨false, out2, err2⟩) dir path remote).1 =
          Except.error ("git worktree add failed: " ++ err2)) ∧
    (∀ (branch out err out2 err2 : String) (path remote : String),
        containsSub err "already exists" = true →
        (WorktreeManager_create branch false (Except.ok ⟨false, out, err⟩)
            (Except.ok ⟨true, out2, err2⟩) false path remote).1 =
          Except.error ("Worktree directory was not created: " ++ path)) ∧
    (∀ (branch out err : String) (retry : Except String CmdOut) (dir : Bool)
        (path remote : String),
        containsSub err "already exists" = false →
        WorktreeManager_create branch false (Except.ok ⟨false, out, err⟩)
            retry dir path remote =
          (Except.error ("git worktree add failed: " ++ err), [true])) := by
  refine ⟨?_, ?_, ?_, ?_, ?_⟩
  · intro branch first retry dir path remote
    simp [WorktreeManager_create]
  · intro branch out err retry dir path remote h
    cases retry with
    | error e => simp [WorktreeManager_create, h]
    | ok o2 =>
        simp [WorktreeManager_create, h, createFinish]
        split <;> rfl
  · intro branch out err out2 err2 dir path remote h
    simp [WorktreeManager_create, h]
  · intro branch out err out2 err2 path remote h
    simp [WorktreeManager_create, h, createFinish]
  · intro branch out err retry dir path remote h
    simp [WorktreeManager_create, h]

theorem c9_create_retry_witness :
    (containsSub "fatal: a branch named b already exists" "already exists" = true ∧
      (WorktreeManager_create "b" false
          (Except.ok ⟨false, "", "fatal: a branch named b already exists"⟩)
          (Except.ok ⟨false, "", "retry stderr"⟩) true "p" "origin").2 = [true, false] ∧
      (WorktreeManager_create "b" false
          (Except.ok ⟨false, "", "fatal: a branch named b already exists"⟩)
          (Except.ok ⟨false, "", "retry stderr"⟩) true "p" "origin").1 =
        Except.error ("git worktree add failed: " ++ "retry stderr") ∧
      (WorktreeManager_create "b" false
          (Except.ok ⟨false, "", "fatal: a branch named b already exists"⟩)
          (Except.ok ⟨true, "", ""⟩) false "p" "origin").1 =
        Except.error ("Worktree directory was not created: " ++ "p")) ∧
    (containsSub "fatal: other" "already exists" = false ∧
      WorktreeManager_create "b" false (Except.ok ⟨false, "", "fatal: other"⟩)
          (Except.ok ⟨true, "", ""⟩) true "p" "origin" =
        (Except.error ("git worktree add failed: " ++ "fatal: other"), [true])) :=
  ⟨⟨by decide,
    c9_create_retry.2.1 "b" "" "fatal: a branch named b already exists"
      (Except.ok ⟨false, "", "retry stderr"⟩) true "p" "origin" (by decide),
    c9_create_retry.2.2.1 "b" "" "fatal: a branch named b already exists" "" "retry stderr"
      true "p" "origin" (by decide),
    c9_create_retry.2.2.2.1 "b" "" "fatal: a branch named b already exists" "" ""
      "p" "origin" (by decide)⟩,
   ⟨by decide,
    c9_create_retry.2.2.2.2 "b" "" "fatal: other" (Except.ok ⟨true, "", ""⟩) true
      "p" "origin" (by decide)⟩⟩

theorem Interleaving.stdout_proj {outs errs : List String} {m : List CommandOutput}
    (h : Interleaving outs errs m) : m.filterMap stdoutLine = outs := by
  induction h with
  | nil => rfl
  | left _ ih => simp [stdoutLine, ih]
  | right _ ih => simp [stdoutLine, ih]

theorem Interleaving.stderr_proj {outs errs : List String} {m : List CommandOutput}
    (h : Interleaving outs errs m) : m.filterMap stderrLine = errs := by
  induction h with
  | nil => rfl
  | left _ ih => simp [stderrLine, ih]
  | right _ ih => simp [stderrLine, ih]

/-- C8: a hook printing lines a then b to stdout and exiting 0 yields, in
order, two `HookOutput` events followed by `HookCompleted(branch, 0)`;
for any interleaving of the two reader streams each stream's lines keep
arrival order and the exit message comes last; a spawn error yields
`HookCompleted(branch, -1)`. -/
theorem c8_hook_streaming :
    (∀ m, Interleaving ["a", "b"] [] m →
        m = [CommandOutput.Stdout "a", CommandOutput.Stdout "b"]) ∧
    (∀ (outs errs : List String) (m : List CommandOutput) (code : Int),
        Interleaving outs errs m →
          (run_async_msgs (Except.ok ()) m (Except.ok code)).filterMap stdoutLine = outs ∧
          (run_async_msgs (Except.ok ()) m (Except.ok code)).filterMap stderrLine = errs ∧
          (run_async_msgs (Except.ok ()) m (Except.ok code)).getLast? =
            some (CommandOutput.Exit code)) ∧
    (∀ branch : String,
        (hookWatcher branch (run_async_msgs (Except.ok ())
            [CommandOutput.Stdout "a", CommandOutput.Stdout "b"]
            (Except.ok 0))).check_running_hooks.2 =
          [WatcherEvent.HookOutput branch (CommandOutput.Stdout "a"),
           WatcherEvent.HookOutput branch (CommandOutput.Stdout "b"),
           WatcherEvent.HookCompleted branch 0] ∧
        (hookWatcher branch (run_async_msgs (Except.ok ())
            [CommandOutput.Stdout "a", CommandOutput.Stdout "b"]
            (Except.ok 0))).check_running_hooks.1.running_hooks = [] ∧
        (hookWatcher branch (run_async_msgs (Except.ok ())
            [CommandOutput.Stdout "a", CommandOutput.Stdout "b"]
            (Except.ok 0))).check_running_hooks.1.current_processing = none) ∧
    (∀ branch e : String,
        (hookWatcher branch (run_async_msgs (Except.error e) []
            (Except.ok 0))).check_running_hooks.2 =
          [WatcherEvent.HookCompleted branch (-1)]) := by
  refine ⟨?_, ?_, ?_, ?_⟩
  · intro m h
    cases h with
    | left h1 =>
      cases h1 with
      | left h2 => cases h2; rfl
  · intro outs errs m code h
    refine ⟨?_, ?_, ?_⟩
    · simp [run_async_msgs, run_command_with_output_msgs, List.filterMap_append,
        h.stdout_proj, stdoutLine]
    · simp [run_async_msgs, run_command_with_output_msgs, List.filterMap_append,
        h.stderr_proj, stderrLine]
    · simp [run_async_msgs, run_command_with_output_msgs]
  · intro branch
    refine ⟨?_, ?_, ?_⟩ <;>
      simp [hookWatcher, Watcher.check_running_hooks, drainAllHooks, drainHook,
        updateLastLog, run_async_msgs, run_command_with_output_msgs, Watcher.new]
  · intro branch e
    simp [hookWatcher, Watcher.check_running_hooks, drainAllHooks, drainHook,
      updateLastLog, run_async_msgs, run_command_with_output_msgs, Watcher.new]

theorem c8_hook_streaming_witness :
    Interleaving ["a", "b"] []
      [CommandOutput.Stdout "a", CommandOutput.Stdout "b"] ∧
    ([CommandOutput.Stdout "a", CommandOutput.Stdout "b"] =
      [CommandOutput.Stdout "a", CommandOutput.Stdout "b"]) ∧
    (run_async_msgs (Except.ok ())
        [CommandOutput.Stdout "a", CommandOutput.Stdout "b"]
        (Except.ok 0)).filterMap stdoutLine = ["a", "b"] :=
  have hi : Interleaving ["a", "b"] []
      [CommandOutput.Stdout "a", CommandOutput.Stdout "b"] :=
    Interleaving.left (Interleaving.left Interleaving.nil)
  ⟨hi, c8_hook_streaming.1 _ hi,
    (c8_hook_streaming.2.1 ["a", "b"] [] _ 0 hi).1⟩

theorem process_next_pending (w : Watcher) (cfg : Config) (root : String)
    (res : Except String (List String)) :
    (w.process_next_branch cfg root res).1.pending_branches = w.pending_branches.tail := by
  cases hp : w.pending_branches with
  | nil => simp [Watcher.process_next_branch, hp]
  | cons b rest =>
    simp only [Watcher.process_next_branch, hp]
    cases res with
    | error e => simp [Watcher.create_worktree]
    | ok msgs =>
      cases hc : cfg.post_create_command with
      | none => simp [Watcher.create_worktree, hc, Watcher.add_worktree_log]
      | some cmd => simp [Watcher.create_worktree, hc, Watcher.add_worktree_log, Watcher.run_hook]

theorem process_next_head (w : Watcher) (cfg : Config) (root : String)
    (res : Except String (List String)) :
    (w.process_next_branch cfg root res).2.head? =
      w.pending_branches.head?.map WatcherEvent.WorktreeCreating := by
  cases hp : w.pending_branches with
  | nil => simp [Watcher.process_next_branch, hp]
  | cons b rest =>
    simp only [Watcher.process_next_branch, hp]
    cases res with
    | error e => simp [Watcher.create_worktree]
    | ok msgs =>
      cases hc : cfg.post_create_command with
      | none => simp [Watcher.create_worktree, hc, Watcher.add_worktree_log]
      | some cmd => simp [Watcher.create_worktree, hc, Watcher.add_worktree_log, Watcher.run_hook]

theorem queue_branch_pending (w : Watcher) (cfg : Config) (root : String)
    (branch : String) (res : Except String (List String)) :
    (w.queue_branch cfg root branch res).1.pending_branches =
      if w.is_pending branch || w.is_current branch then w.pending_branches
      else if w.current_processing.isSome then w.pending_branches ++ [branch]
      else (w.pending_branches ++ [branch]).tail := by
  by_cases hg : (w.is_pending branch || w.is_current branch) = true
  · simp [Watcher.queue_branch, hg]
  · have hg2 : (w.is_pending branch || w.is_current branch) = false :=
      Bool.eq_false_iff.mpr hg
    cases hc : w.current_processing with
    | none => simp [Watcher.queue_branch, hg2, hc, process_next_pending]
    | some b => simp [Watcher.queue_branch, hg2, hc]

/-- C2: enqueueing distinct branches A, B, C in that order into an empty
queue provisions them strictly in that order — the concrete scenario emits
`WorktreeCreating` for A, B, C in order and ends with an empty queue — and
structurally `process_next_branch` always takes the head of
`pending_branches` (its first event is `WorktreeCreating` of the head and
the head is popped) while `queue_branch` appends to the tail. -/
theorem c2_fifo_order :
    ((Watcher.new.run opsFifo).2.filterMap creatingName = ["A", "B", "C"] ∧
      (Watcher.new.run opsFifo).1.pending_branches = [] ∧
      (Watcher.new.run opsFifo).1.current_processing = none) ∧
    (∀ (w : Watcher) (cfg : Config) (root : String) (res : Except String (List String)),
        (w.process_next_branch cfg root res).2.head? =
          w.pending_branches.head?.map WatcherEvent.WorktreeCreating ∧
        (w.process_next_branch cfg root res).1.pending_branches =
          w.pending_branches.tail) ∧
    (∀ (w : Watcher) (cfg : Config) (root branch : String)
        (res : Except String (List String)),
        (w.queue_branch cfg root branch res).1.pending_branches =
          if w.is_pending branch || w.is_current branch then w.pending_branches
          else if w.current_processing.isSome then w.pending_branches ++ [branch]
          else (w.pending_branches ++ [branch]).tail) :=
  ⟨⟨by decide, by decide, by decide⟩,
   fun w cfg root res => ⟨process_next_head w cfg root res, process_next_pending w cfg root res⟩,
   queue_branch_pending⟩

/-- C3: a failed worktree creation emits `WorktreeCreateFailed(branch, msg)`
and clears `current_processing`; the driver reacts to that event by calling
`try_process_next`; in the concrete scenario where A and B are auto-queued
and A's creation fails, B is provisioned with no manual intervention and
the queue ends empty (not stalled). -/
theorem c3_no_stall_on_failure :
    (∀ (w : Watcher) (cfg : Config) (root branch e : String),
        w.create_worktree cfg root branch (Except.error e) =
          ({ w with current_processing := none },
           [WatcherEvent.WorktreeCreating branch,
            WatcherEvent.WorktreeCreateFailed branch e])) ∧
    (∀ (cfg : Config) (b m : String),
        driver_advance_on cfg (WatcherEvent.WorktreeCreateFailed b m) = true) ∧
    (stallFetch.2 ++ stallDrained.2 =
      [WatcherEvent.NewBranchesFound ["A", "B"],
       WatcherEvent.WorktreeCreating "A",
       WatcherEvent.WorktreeCreateFailed "A" "boom",
       WatcherEvent.WorktreeCreating "B",
       WatcherEvent.WorktreeCreated "B" "r/../B"]) ∧
    stallDrained.1.pending_branches = [] ∧
    stallDrained.1.current_processing = none :=
  ⟨fun w cfg root branch e => rfl,
   fun cfg b m => rfl,
   by decide, by decide, by decide⟩

/-- C1: evaluation of the failing scenario. `Watcher::queue_branch` refuses
a branch that is pending or current, but the auto-create loop of
`Watcher::on_fetch_complete` checks only `pending_branches`: after
`opsOverlap` the branch x is `current_processing` (its hook still runs)
and simultaneously a member of `pending_branches`, violating the
queue-exclusivity invariant. -/
theorem c1_pending_current_overlap :
    (Watcher.new.run opsOverlap).1.current_processing = some "x" ∧
    (Watcher.new.run opsOverlap).1.pending_branches = ["x"] ∧
    (Watcher.new.run opsOverlap).1.running_hooks.length = 1 := by
  exact ⟨by decide, by decide, by decide⟩

theorem create_worktree_fetch (w : Watcher) (cfg : Config) (root branch : String)
    (res : Except String (List String)) :
    (w.create_worktree cfg root branch res).1.fetch_in_progress = w.fetch_in_progress := by
  cases res with
  | error e => simp [Watcher.create_worktree]
  | ok msgs =>
    cases hc : cfg.post_create_command with
    | none => simp [Watcher.create_worktree, hc, Watcher.add_worktree_log]
    | some cmd => simp [Watcher.create_worktree, hc, Watcher.add_worktree_log, Watcher.run_hook]

theorem process_next_fetch (w : Watcher) (cfg : Config) (root : String)
    (res : Except String (List String)) :
    (w.process_next_branch cfg root res).1.fetch_in_progress = w.fetch_in_progress := by
  cases hp : w.pending_branches with
  | nil => simp [Watcher.process_next_branch, hp]
  | cons b rest => simp [Watcher.process_next_branch, hp, create_worktree_fetch]

theorem queue_branch_fetch (w : Watcher) (cfg : Config) (root branch : String)
    (res : Except String (List String)) :
    (w.queue_branch cfg root branch res).1.fetch_in_progress = w.fetch_in_progress := by
  by_cases hg : (w.is_pending branch || w.is_current branch) = true
  · simp [Watcher.queue_branch, hg]
  · have hg2 : (w.is_pending branch || w.is_current branch) = false :=
      Bool.eq_false_iff.mpr hg
    cases hc : w.current_processing with
    | none => simp [Watcher.queue_branch, hg2, hc, process_next_fetch]
    | some b => simp [Watcher.queue_branch, hg2, hc]

theorem try_process_fetch (w : Watcher) (cfg : Config) (root : String)
    (res : Except String (List String)) :
    (w.try_process_next cfg root res).1.fetch_in_progress = w.fetch_in_progress := by
  by_cases hg : (w.current_processing.isNone && !w.pending_branches.isEmpty) = true
  · simp [Watcher.try_process_next, hg, process_next_fetch]
  · have hg2 := Bool.eq_false_iff.mpr hg
    simp [Watcher.try_process_next, hg2]

theorem foldl_fetch_preserved {α : Type} (f : Watcher → α → Watcher)
    (hf : ∀ (w : Watcher) (a : α), (f w a).fetch_in_progress = w.fetch_in_progress) :
    ∀ (l : List α) (w : Watcher), (l.foldl f w).fetch_in_progress = w.fetch_in_progress := by
  intro l
  induction l with
  | nil => intro w; rfl
  | cons a rest ih => intro w; rw [List.foldl_cons, ih, hf]

theorem check_hooks_fetch (w : Watcher) :
    w.check_running_hooks.1.fetch_in_progress = w.fetch_in_progress := by
  simp only [Watcher.check_running_hooks]
  have h := foldl_fetch_preserved (fun (v : Watcher) (branch : String) =>
      { v with running_hooks := v.running_hooks.filter (fun h => !(h.1 == branch)),
               current_processing :=
                 if v.current_processing = some branch then none
                 else v.current_processing }) (fun v b => rfl)
  exact (h _ _).trans rfl

theorem on_fetch_complete_fetch (w : Watcher) (cfg : Config) (root : String)
    (r : Except String (List RemoteBranch)) (l : List RemoteBranch)
    (hw : String → Bool) (cr : Except String (List String)) :
    (w.on_fetch_complete cfg root r l hw cr).1.fetch_in_progress = false := by
  cases r with
  | error e => rfl
  | ok rs =>
    simp only [Watcher.on_fetch_complete]
    have hfold := foldl_fetch_preserved (fun (v : Watcher) (b : String) =>
        if cfg.should_ignore_branch b then v
        else if hw b then v
        else if v.pending_branches.contains b then v
        else { v with pending_branches := v.pending_branches ++ [b] }) ?_
    · split
      · rfl
      · split
        · split
          · rw [process_next_fetch]
            exact (hfold _ _).trans rfl
          · exact (hfold _ _).trans rfl
        · rfl
    · intro v b
      show (if cfg.should_ignore_branch b = true then v else _).fetch_in_progress =
        v.fetch_in_progress
      split
      · rfl
      · split
        · rfl
        · split
          · rfl
          · rfl

/-- C4: `start_fetch` is a no-op while a fetch is in progress (no event, no
spawned background fetch, state unchanged); otherwise it sets the flag,
emits exactly one `FetchStarted`, and spawns exactly one background fetch;
among the watcher operations only the acknowledgements `on_fetch_complete`
and `on_fetch_failed` ever clear the flag, and they do clear it. -/
theorem c4_fetch_idempotence :
    (∀ w : Watcher, w.fetch_in_progress = true → w.start_fetch = (w, [], false)) ∧
    (∀ w : Watcher, w.fetch_in_progress = false →
        w.start_fetch =
          ({ w with fetch_in_progress := true }, [WatcherEvent.FetchStarted], true)) ∧
    (∀ (w : Watcher) (op : WOp), w.fetch_in_progress = true →
        (w.step op).1.fetch_in_progress = false → op.isFetchAck = true) ∧
    (∀ w : Watcher, w.on_fetch_failed.fetch_in_progress = false) ∧
    (∀ (w : Watcher) (cfg : Config) (root : String)
        (r : Except String (List RemoteBranch)) (l : List RemoteBranch)
        (hw : String → Bool) (cr : Except String (List String)),
        (w.on_fetch_complete cfg root r l hw cr).1.fetch_in_progress = false) := by
  refine ⟨?_, ?_, ?_, fun w => rfl, on_fetch_complete_fetch⟩
  · intro w h
    simp [Watcher.start_fetch, h]
  · intro w h
    simp [Watcher.start_fetch, h]
  · intro w op h1 h2
    cases op with
    | startFetch =>
      simp [Watcher.step, Watcher.start_fetch, h1] at h2
    | fetchFailed => rfl
    | fetchComplete r l hw cr cfg root => rfl
    | queueBranch branch cr cfg root =>
      rw [show (w.step (WOp.queueBranch branch cr cfg root)).1 =
          (w.queue_branch cfg root branch cr).1 from rfl, queue_branch_fetch, h1] at h2
      exact absurd h2 (by simp)
    | tryProcessNext cr cfg root =>
      rw [show (w.step (WOp.tryProcessNext cr cfg root)).1 =
          (w.try_process_next cfg root cr).1 from rfl, try_process_fetch, h1] at h2
      exact absurd h2 (by simp)
    | checkRunningHooks =>
      rw [show (w.step WOp.checkRunningHooks).1 = w.check_running_hooks.1 from rfl,
        check_hooks_fetch, h1] at h2
      exact absurd h2 (by simp)
    | hookProduce branch msgs dropSender =>
      rw [show (w.step (WOp.hookProduce branch msgs dropSender)).1 =
          w.hook_produce branch msgs dropSender from rfl] at h2
      simp only [Watcher.hook_produce] at h2
      rw [h1] at h2
      exact absurd h2 (by simp)

theorem c4_fetch_idempotence_witness :
    ({ Watcher.new with fetch_in_progress := true } : Watcher).fetch_in_progress = true ∧
    ({ Watcher.new with fetch_in_progress := true } : Watcher).start_fetch =
      ({ Watcher.new with fetch_in_progress := true }, [], false) ∧
    Watcher.new.fetch_in_progress = false ∧
    Watcher.new.start_fetch =
      ({ Watcher.new with fetch_in_progress := true }, [WatcherEvent.FetchStarted], true) :=
  ⟨rfl, c4_fetch_idempotence.1 _ rfl, rfl, c4_fetch_idempotence.2.1 _ rfl⟩

theorem containsKey_map_same (m : List (String × RemoteBranch)) (k n : String)
    (v : RemoteBranch) :
    containsKey (m.map (fun kv => if kv.1 == k then (k, v) else kv)) n =
      containsKey m n := by
  induction m with
  | nil => rfl
  | cons kv rest ih =>
    simp only [containsKey, List.map_cons, List.any_cons] at *
    rw [ih]
    by_cases hk : kv.1 == k
    · have hk2 : kv.1 = k := by simpa using hk
      rw [if_pos hk, hk2]
    · rw [if_neg hk]

theorem containsKey_insertKV (m : List (String × RemoteBranch)) (k n : String)
    (v : RemoteBranch) :
    containsKey (insertKV m k v) n = (containsKey m n || k == n) := by
  by_cases h : containsKey m k = true
  · rw [insertKV, if_pos h, containsKey_map_same]
    by_cases hn : k == n
    · have : k = n := by simpa using hn
      subst this
      simp [h]
    · simp [hn]
  · rw [insertKV, if_neg h]
    simp [containsKey, List.any_append]

theorem containsKey_findNewRemote (cfg : Config) :
    ∀ (rs : List RemoteBranch) (known : List (String × RemoteBranch)) (n : String),
    containsKey (findNewRemote known cfg rs).1 n =
      (containsKey known n || rs.any (fun b => b.name == n)) := by
  intro rs
  induction rs with
  | nil => intro known n; simp [findNewRemote]
  | cons b rest ih =>
    intro known n
    simp only [findNewRemote, List.any_cons]
    cases hck : containsKey known b.name with
    | true =>
      rw [if_pos rfl, ih]
      by_cases hb : b.name == n
      · have hb2 : b.name = n := by simpa using hb
        rw [← hb2, hck]
        simp
      · rw [Bool.eq_false_iff.mpr (fun hx => hb hx)]
        simp
    | false =>
      rw [if_neg (by simp)]
      cases hr : findNewRemote (insertKV known b.name b) cfg rest with
      | mk kn new =>
        have hi := ih (insertKV known b.name b) n
        rw [hr] at hi
        rw [show ((kn, if cfg.should_ignore_branch b.name then new
            else b.name :: new) : List (String × RemoteBranch) × List String).1 = kn from rfl]
        rw [show (kn, new).1 = kn from rfl] at hi
        rw [hi, containsKey_insertKV, Bool.or_assoc]

theorem containsKey_addLocals :
    ∀ (ls : List RemoteBranch) (known : List (String × RemoteBranch)) (n : String),
    containsKey (addLocals known ls) n =
      (containsKey known n || ls.any (fun b => b.name == n)) := by
  intro ls
  induction ls with
  | nil => intro known n; simp [addLocals]
  | cons b rest ih =>
    intro known n
    simp only [addLocals, List.any_cons]
    cases hck : containsKey known b.name with
    | true =>
      rw [if_pos rfl, ih]
      by_cases hb : b.name == n
      · have hb2 : b.name = n := by simpa using hb
        rw [← hb2, hck]
        simp
      · rw [Bool.eq_false_iff.mpr (fun hx => hb hx)]
        simp
    | false =>
      rw [if_neg (by simp), ih, containsKey_insertKV, Bool.or_assoc]

theorem containsKey_retainCurrent (names : List String) :
    ∀ (known : List (String × RemoteBranch)) (n : String),
    containsKey (retainCurrent known names) n =
      (containsKey known n && names.contains n) := by
  intro known
  induction known with
  | nil => intro n; simp [retainCurrent, containsKey]
  | cons kv rest ih =>
    intro n
    simp only [retainCurrent, containsKey, List.filter_cons, List.any_cons] at *
    by_cases hf : names.contains kv.1 = true
    · rw [if_pos hf]
      simp only [List.any_cons]
      rw [ih]
      by_cases hk : kv.1 == n
      · have hk2 : kv.1 = n := by simpa using hk
        subst hk2
        have hmem : kv.1 ∈ names := by
          simpa [List.contains_eq_any_beq, List.any_eq_true, beq_iff_eq,
            eq_comm] using hf
        simp [hf, hmem]
      · rw [Bool.eq_false_iff.mpr (fun hx => hk hx)]
        simp
    · rw [if_neg hf, ih]
      by_cases hk : kv.1 == n
      · have hk2 : kv.1 = n := by simpa using hk
        subst hk2
        rw [Bool.eq_false_iff.mpr hf]
        simp
      · rw [Bool.eq_false_iff.mpr (fun hx => hk hx)]
        simp

theorem find_isSome_of_containsKey (m : List (String × RemoteBranch)) (n : String)
    (h : containsKey m n = true) :
    (m.find? (fun kv => kv.1 == n)).isSome = true := by
  rw [List.find?_isSome]
  rw [containsKey, List.any_eq_true] at h
  exact h

theorem lookupKV_append_of_contains (m : List (String × RemoteBranch))
    (xs : List (String × RemoteBranch)) (n : String) (h : containsKey m n = true) :
    lookupKV (m ++ xs) n = lookupKV m n := by
  rw [lookupKV, lookupKV, List.find?_append]
  obtain ⟨v, hv⟩ := Option.isSome_iff_exists.mp (find_isSome_of_containsKey m n h)
  rw [hv]
  rfl

theorem lookupKV_insertKV_of_ne (m : List (String × RemoteBranch)) (k n : String)
    (v : RemoteBranch) (hk : containsKey m k = false) (hn : containsKey m n = true) :
    lookupKV (insertKV m k v) n = lookupKV m n := by
  rw [insertKV, if_neg (by simp [hk])]
  exact lookupKV_append_of_contains m _ n hn

theorem lookupKV_addLocals :
    ∀ (ls : List RemoteBranch) (known : List (String × RemoteBranch)) (n : String),
    containsKey known n = true →
    lookupKV (addLocals known ls) n = lookupKV known n := by
  intro ls
  induction ls with
  | nil => intro known n _; rfl
  | cons b rest ih =>
    intro known n hn
    simp only [addLocals]
    cases hck : containsKey known b.name with
    | true =>
      rw [if_pos rfl]
      exact ih known n hn
    | false =>
      rw [if_neg (by simp)]
      have hn2 : containsKey (insertKV known b.name b) n = true := by
        rw [containsKey_insertKV, hn]
        simp
      rw [ih _ n hn2]
      exact lookupKV_insertKV_of_ne known b.name n b hck hn

theorem findNewRemote_new (cfg : Config) :
    ∀ (rs : List RemoteBranch) (known : List (String × RemoteBranch)),
    (rs.map (fun b => b.name)).Nodup →
    (findNewRemote known cfg rs).2 =
      (rs.filter (fun b => !containsKey known b.name &&
        !cfg.should_ignore_branch b.name)).map (fun b => b.name) := by
  intro rs
  induction rs with
  | nil => intro known _; rfl
  | cons b rest ih =>
    intro known hnd
    rw [List.map_cons] at hnd
    obtain ⟨hbn, hnd2⟩ := List.nodup_cons.mp hnd
    have hflt : rest.filter (fun x => !containsKey (insertKV known b.name b) x.name &&
          !cfg.should_ignore_branch x.name) =
        rest.filter (fun x => !containsKey known x.name &&
          !cfg.should_ignore_branch x.name) := by
      apply List.filter_congr
      intro x hx
      have hne : (b.name == x.name) = false := by
        rw [Bool.eq_false_iff]
        intro hbe
        exact hbn (List.mem_map.mpr ⟨x, hx, (eq_of_beq hbe).symm⟩)
      rw [containsKey_insertKV, hne]
      simp
    simp only [findNewRemote, List.filter_cons]
    cases hck : containsKey known b.name with
    | true =>
      rw [if_pos rfl]
      rw [show (!true && !cfg.should_ignore_branch b.name) = false from rfl]
      rw [if_neg (by simp)]
      exact ih known hnd2
    | false =>
      rw [if_neg (by simp)]
      cases hr : findNewRemote (insertKV known b.name b) cfg rest with
      | mk kn new =>
        have hi := ih (insertKV known b.name b) hnd2
        rw [hr] at hi
        rw [show ((kn, new) : List (String × RemoteBranch) × List String).2 = new
          from rfl] at hi
        rw [show ((kn, if cfg.should_ignore_branch b.name then new
            else b.name :: new) : List (String × RemoteBranch) × List String).2 =
          (if cfg.should_ignore_branch b.name then new else b.name :: new) from rfl]
        cases hig : cfg.should_ignore_branch b.name with
        | true =>
          rw [if_pos rfl]
          rw [show (!false && !true) = false from rfl]
          rw [if_neg (by simp)]
          rw [hi, hflt]
        | false =>
          rw [if_neg (by simp)]
          rw [show (!false && !false) = true from rfl]
          rw [if_pos rfl, List.map_cons, hi, hflt]

theorem create_worktree_known (w : Watcher) (cfg : Config) (root branch : String)
    (res : Except String (List String)) :
    (w.create_worktree cfg root branch res).1.known_branches = w.known_branches := by
  cases res with
  | error e => simp [Watcher.create_worktree]
  | ok msgs =>
    cases hc : cfg.post_create_command with
    | none => simp [Watcher.create_worktree, hc, Watcher.add_worktree_log]
    | some cmd => simp [Watcher.create_worktree, hc, Watcher.add_worktree_log, Watcher.run_hook]

theorem process_next_known (w : Watcher) (cfg : Config) (root : String)
    (res : Except String (List String)) :
    (w.process_next_branch cfg root res).1.known_branches = w.known_branches := by
  cases hp : w.pending_branches with
  | nil => simp [Watcher.process_next_branch, hp]
  | cons b rest => simp [Watcher.process_next_branch, hp, create_worktree_known]

theorem foldl_known_preserved {α : Type} (f : Watcher → α → Watcher)
    (hf : ∀ (w : Watcher) (a : α), (f w a).known_branches = w.known_branches) :
    ∀ (l : List α) (w : Watcher), (l.foldl f w).known_branches = w.known_branches := by
  intro l
  induction l with
  | nil => intro w; rfl
  | cons a rest ih => intro w; rw [List.foldl_cons, ih, hf]

theorem on_fetch_complete_known (w : Watcher) (cfg : Config) (root : String)
    (rs : List RemoteBranch) (l : List RemoteBranch) (hw : String → Bool)
    (cr : Except String (List String)) :
    (w.on_fetch_complete cfg root (Except.ok rs) l hw cr).1.known_branches =
      retainCurrent (addLocals (findNewRemote w.known_branches cfg rs).1 l)
        (rs.map (fun b => b.name) ++ l.map (fun b => b.name)) := by
  simp only [Watcher.on_fetch_complete]
  have hfold := foldl_known_preserved (fun (v : Watcher) (b : String) =>
      if cfg.should_ignore_branch b then v
      else if hw b then v
      else if v.pending_branches.contains b then v
      else { v with pending_branches := v.pending_branches ++ [b] }) ?_
  · split
    · rfl
    · split
      · split
        · rw [process_next_known]
          exact (hfold _ _).trans rfl
        · exact (hfold _ _).trans rfl
      · rfl
  · intro v b
    show (if cfg.should_ignore_branch b = true then v else _).known_branches =
      v.known_branches
    split
    · rfl
    · split
      · rfl
      · split
        · rfl
        · rfl

theorem on_fetch_complete_events_head (w : Watcher) (cfg : Config) (root : String)
    (rs : List RemoteBranch) (l : List RemoteBranch) (hw : String → Bool)
    (cr : Except String (List String)) :
    (w.on_fetch_complete cfg root (Except.ok rs) l hw cr).2.head? =
      (if (findNewRemote w.known_branches cfg rs).2.isEmpty then none
       else some (WatcherEvent.NewBranchesFound
         (findNewRemote w.known_branches cfg rs).2)) := by
  simp only [Watcher.on_fetch_complete]
  split
  · simp_all
  · split
    · split
      · simp_all
      · simp_all
    · simp_all

/-- C6: after a successful fetch the watcher reports as new exactly the
non-ignored scanned remote names absent from the registry (in scan order,
emitted in a `NewBranchesFound` event when nonempty), the registry
afterwards contains exactly the names of the fresh remote and local scans,
local records never overwrite existing (remote) records, and on the
concrete example `{main, feature-a}` + scan `{main, feature-b}` the report
is `feature-b` and `feature-a` is removed. -/
theorem c6_reconcile :
    (∀ (w : Watcher) (cfg : Config) (rs : List RemoteBranch),
        (rs.map (fun b => b.name)).Nodup →
        (findNewRemote w.known_branches cfg rs).2 =
          (rs.filter (fun b => !containsKey w.known_branches b.name &&
            !cfg.should_ignore_branch b.name)).map (fun b => b.name)) ∧
    (∀ (w : Watcher) (cfg : Config) (root : String) (rs l : List RemoteBranch)
        (hw : String → Bool) (cr : Except String (List String)),
        (findNewRemote w.known_branches cfg rs).2.isEmpty = false →
        (w.on_fetch_complete cfg root (Except.ok rs) l hw cr).2.head? =
          some (WatcherEvent.NewBranchesFound
            (findNewRemote w.known_branches cfg rs).2)) ∧
    (∀ (w : Watcher) (cfg : Config) (root : String) (rs l : List RemoteBranch)
        (hw : String → Bool) (cr : Except String (List String)) (n : String),
        containsKey
            (w.on_fetch_complete cfg root (Except.ok rs) l hw cr).1.known_branches
            n = true ↔
          (n ∈ rs.map (fun b => b.name) ∨ n ∈ l.map (fun b => b.name))) ∧
    (∀ (known : List (String × RemoteBranch)) (ls : List RemoteBranch) (n : String),
        containsKey known n = true →
        lookupKV (addLocals known ls) n = lookupKV known n) ∧
    (reconcileRes.2 = [WatcherEvent.NewBranchesFound ["feature-b"]] ∧
      containsKey reconcileRes.1.known_branches "feature-a" = false ∧
      containsKey reconcileRes.1.known_branches "main" = true ∧
      containsKey reconcileRes.1.known_branches "feature-b" = true) := by
  refine ⟨?_, ?_, ?_, fun known ls n h => lookupKV_addLocals ls known n h,
    by decide, by decide, by decide, by decide⟩
  · intro w cfg rs hnd
    exact findNewRemote_new cfg rs w.known_branches hnd
  · intro w cfg root rs l hw cr hne
    rw [on_fetch_complete_events_head, if_neg (by simp [hne])]
  · intro w cfg root rs l hw cr n
    rw [on_fetch_complete_known, containsKey_retainCurrent, containsKey_addLocals,
      containsKey_findNewRemote]
    simp only [Bool.and_eq_true, Bool.or_eq_true, List.any_eq_true,
      List.contains_eq_any_beq, List.any_append, beq_iff_eq, List.mem_map,
      List.mem_append]
    constructor
    · rintro ⟨-, h⟩
      rcases h with ⟨x, ⟨a, ha, hax⟩, hnx⟩ | ⟨x, ⟨a, ha, hax⟩, hnx⟩
      · exact Or.inl ⟨a, ha, by rw [hax, ← hnx]⟩
      · exact Or.inr ⟨a, ha, by rw [hax, ← hnx]⟩
    · rintro (⟨x, hx, he⟩ | ⟨x, hx, he⟩)
      · exact ⟨Or.inl (Or.inr ⟨x, hx, he⟩), Or.inl ⟨n, ⟨x, hx, he⟩, rfl⟩⟩
      · exact ⟨Or.inr ⟨x, hx, he⟩, Or.inr ⟨n, ⟨x, hx, he⟩, rfl⟩⟩

theorem c6_reconcile_witness :
    ((["main", "feature-b"] : List String).Nodup ∧
      (findNewRemote knownPrior cfgHook [rb "main", rb "feature-b"]).2 =
        ([rb "main", rb "feature-b"].filter (fun b => !containsKey knownPrior b.name &&
          !cfgHook.should_ignore_branch b.name)).map (fun b => b.name)) ∧
    ((findNewRemote knownPrior cfgHook [rb "main", rb "feature-b"]).2.isEmpty = false ∧
      reconcileRes.2.head? = some (WatcherEvent.NewBranchesFound
        (findNewRemote knownPrior cfgHook [rb "main", rb "feature-b"]).2)) ∧
    (containsKey reconcileRes.1.known_branches "feature-a" = true ↔
      ("feature-a" ∈ ([rb "main", rb "feature-b"].map (fun b => b.name)) ∨
        "feature-a" ∈ (([] : List RemoteBranch).map (fun b => b.name)))) ∧
    (containsKey knownPrior "main" = true ∧
      lookupKV (addLocals knownPrior [rb "main"]) "main" = lookupKV knownPrior "main") := by
  refine ⟨⟨by decide, ?_⟩, ⟨by decide, ?_⟩, ?_, by decide, ?_⟩
  · exact c6_reconcile.1 { Watcher.new with known_branches := knownPrior } cfgHook
      [rb "main", rb "feature-b"] (by decide)
  · exact c6_reconcile.2.1 { Watcher.new with known_branches := knownPrior } cfgHook "r"
      [rb "main", rb "feature-b"] [] (fun _ => false) (Except.error "unused") (by decide)
  · exact c6_reconcile.2.2.1 { Watcher.new with known_branches := knownPrior } cfgHook "r"
      [rb "main", rb "feature-b"] [] (fun _ => false) (Except.error "unused") "feature-a"
  · exact c6_reconcile.2.2.2.1 knownPrior [rb "main"] "main" (by decide)

theorem containsKey_on_fetch_complete (w : Watcher) (cfg : Config) (root : String)
    (rs l : List RemoteBranch) (hw : String → Bool)
    (cr : Except String (List String)) (n : String) :
    containsKey (w.on_fetch_complete cfg root (Except.ok rs) l hw cr).1.known_branches
        n = true ↔
      (n ∈ rs.map (fun b => b.name) ∨ n ∈ l.map (fun b => b.name)) := by
  rw [on_fetch_complete_known, containsKey_retainCurrent, containsKey_addLocals,
    containsKey_findNewRemote]
  simp only [Bool.and_eq_true, Bool.or_eq_true, List.any_eq_true,
    List.contains_eq_any_beq, List.any_append, beq_iff_eq, List.mem_map,
    List.mem_append]
  constructor
  · rintro ⟨-, h⟩
    rcases h with ⟨x, ⟨a, ha, hax⟩, hnx⟩ | ⟨x, ⟨a, ha, hax⟩, hnx⟩
    · exact Or.inl ⟨a, ha, by rw [hax, ← hnx]⟩
    · exact Or.inr ⟨a, ha, by rw [hax, ← hnx]⟩
  · rintro (⟨x, hx, he⟩ | ⟨x, hx, he⟩)
    · exact ⟨Or.inl (Or.inr ⟨x, hx, he⟩), Or.inl ⟨n, ⟨x, hx, he⟩, rfl⟩⟩
    · exact ⟨Or.inr ⟨x, hx, he⟩, Or.inr ⟨n, ⟨x, hx, he⟩, rfl⟩⟩

/-- C7 counterexample: in the `opsDrop` run the branch x is still waiting in
`pending_branches` when a fetch completes whose scans no longer report x,
and the removal step of `on_fetch_complete` drops x from the registry —
a queue-held branch is not protected. -/
theorem c7_queue_held_branch_dropped :
    (Watcher.new.run opsDrop).1.pending_branches = ["x"] ∧
    containsKey (Watcher.new.run opsDrop).1.known_branches "x" = false :=
  ⟨by decide, by decide⟩

/-- C7 amended: the removal step of `on_fetch_complete` takes no account of
the provisioning queue — a branch held in `pending_branches` or
`current_processing` remains in the registry after the removal step if and
only if it appears in the fresh remote or local scan. -/
theorem c7_removal_ignores_queue :
    ∀ (w : Watcher) (cfg : Config) (root : String) (rs l : List RemoteBranch)
      (hw : String → Bool) (cr : Except String (List String)) (b : String),
      (b ∈ w.pending_branches ∨ w.current_processing = some b) →
      (containsKey
          (w.on_fetch_complete cfg root (Except.ok rs) l hw cr).1.known_branches
          b = true ↔
        (b ∈ rs.map (fun x => x.name) ∨ b ∈ l.map (fun x => x.name))) :=
  fun w cfg root rs l hw cr b _ =>
    containsKey_on_fetch_complete w cfg root rs l hw cr b

theorem c7_removal_ignores_queue_witness :
    ("x" ∈ wPendingX.pending_branches ∨ wPendingX.current_processing = some "x") ∧
    (containsKey (wPendingX.on_fetch_complete cfgHook "r" (Except.ok []) []
          (fun _ => false) okRes).1.known_branches "x" = true ↔
      ("x" ∈ (([] : List RemoteBranch)).map (fun x => x.name) ∨
        "x" ∈ (([] : List RemoteBranch)).map (fun x => x.name))) :=
  ⟨Or.inl (by decide),
   c7_removal_ignores_queue wPendingX cfgHook "r" [] [] (fun _ => false) okRes "x"
     (Or.inl (by decide))⟩
